import Mathlib

/-!
# Beat-Shooter: verification of the tile scheduler / renderer core

A shallow embedding of the rhythm-game client core found in
`frontend/src/components/GameScreen.tsx` (the variant taking an `audioUrl`
prop) and its colour-CV sibling component.  Times are in seconds and
modelled as rationals; canvas sizes and coordinates are rationals as well.
Fallible steps (network fetches, JSON field access) are modelled with
`Option` / `Except`.
-/

namespace BeatShooter

/-! ## Constants (GameScreen.tsx lines 279-289) -/

def TILE_RADIUS : ℚ := 70
def TILE_WINDOW : ℕ := 6
def TILE_SPACING_RADIUS : ℚ := 2 * TILE_RADIUS
/-- `TILE_FADE_IN_DURATION = 0.05` -/
def TILE_FADE_IN_DURATION : ℚ := 1/20
/-- `TILE_FADE_OUT_DURATION = 0.4` -/
def TILE_FADE_OUT_DURATION : ℚ := 2/5
/-- `TILE_VISIBLE_DURATION = 4` -/
def TILE_VISIBLE_DURATION : ℚ := 4
/-- `ENERGY_RADIUS_SCALE = 0.6` -/
def ENERGY_RADIUS_SCALE : ℚ := 3/5
/-- `TILE_BASE_OPACITY = 0.82` -/
def TILE_BASE_OPACITY : ℚ := 41/50
/-- `END_SCREEN_DELAY = 3` -/
def END_SCREEN_DELAY : ℚ := 3

/-! ## Tile visibility window (GameScreen.tsx lines 471-485, draw loop) -/

/-- `fadeOutStart = displayAt + TILE_FADE_IN_DURATION + TILE_VISIBLE_DURATION`. -/
def fadeOutStart (displayAt : ℚ) : ℚ :=
  displayAt + TILE_FADE_IN_DURATION + TILE_VISIBLE_DURATION

/-- Opacity of a tile at a given elapsed time, exactly as the per-frame loop
computes it: `none` means the loop `continue`s without drawing the tile
(before `displayAt`, or at/after `fadeOutStart + TILE_FADE_OUT_DURATION`);
`some o` means the tile is drawn with `globalAlpha = o`. -/
def tileOpacity (displayAt elapsed : ℚ) : Option ℚ :=
  if elapsed < displayAt then none
  else if fadeOutStart displayAt + TILE_FADE_OUT_DURATION ≤ elapsed then none
  else if elapsed < displayAt + TILE_FADE_IN_DURATION then
    some (TILE_BASE_OPACITY * ((elapsed - displayAt) / TILE_FADE_IN_DURATION))
  else if fadeOutStart displayAt ≤ elapsed then
    some (TILE_BASE_OPACITY * (1 - min 1 ((elapsed - fadeOutStart displayAt) / TILE_FADE_OUT_DURATION)))
  else some TILE_BASE_OPACITY

/-! ### Phase lemmas for `tileOpacity` -/

theorem tileOpacity_before (d e : ℚ) (h : e < d) : tileOpacity d e = none := by
  unfold tileOpacity
  rw [if_pos h]

theorem tileOpacity_done (d e : ℚ)
    (h : fadeOutStart d + TILE_FADE_OUT_DURATION ≤ e) : tileOpacity d e = none := by
  have hd : ¬ e < d := by
    simp only [fadeOutStart, TILE_FADE_IN_DURATION, TILE_VISIBLE_DURATION,
      TILE_FADE_OUT_DURATION] at h ⊢
    push_neg
    linarith
  unfold tileOpacity
  rw [if_neg hd, if_pos h]

theorem tileOpacity_fadeIn (d e : ℚ) (h1 : d ≤ e) (h2 : e < d + TILE_FADE_IN_DURATION) :
    tileOpacity d e = some (TILE_BASE_OPACITY * ((e - d) / TILE_FADE_IN_DURATION)) := by
  have hd : ¬ e < d := not_lt.mpr h1
  have hdone : ¬ fadeOutStart d + TILE_FADE_OUT_DURATION ≤ e := by
    simp only [fadeOutStart, TILE_FADE_IN_DURATION, TILE_VISIBLE_DURATION,
      TILE_FADE_OUT_DURATION] at h2 ⊢
    push_neg
    linarith
  unfold tileOpacity
  rw [if_neg hd, if_neg hdone, if_pos h2]

theorem tileOpacity_hold (d e : ℚ) (h1 : d + TILE_FADE_IN_DURATION ≤ e)
    (h2 : e < fadeOutStart d) : tileOpacity d e = some TILE_BASE_OPACITY := by
  have hd : ¬ e < d := by
    simp only [TILE_FADE_IN_DURATION] at h1
    push_neg
    linarith
  have hdone : ¬ fadeOutStart d + TILE_FADE_OUT_DURATION ≤ e := by
    simp only [fadeOutStart, TILE_FADE_IN_DURATION, TILE_VISIBLE_DURATION,
      TILE_FADE_OUT_DURATION] at h2 ⊢
    push_neg
    linarith
  have hfi : ¬ e < d + TILE_FADE_IN_DURATION := not_lt.mpr h1
  have hfo : ¬ fadeOutStart d ≤ e := not_le.mpr h2
  unfold tileOpacity
  rw [if_neg hd, if_neg hdone, if_neg hfi, if_neg hfo]

theorem tileOpacity_fadeOut (d e : ℚ) (h1 : fadeOutStart d ≤ e)
    (h2 : e < fadeOutStart d + TILE_FADE_OUT_DURATION) :
    tileOpacity d e
      = some (TILE_BASE_OPACITY * (1 - (e - fadeOutStart d) / TILE_FADE_OUT_DURATION)) := by
  have hd : ¬ e < d := by
    simp only [fadeOutStart, TILE_FADE_IN_DURATION, TILE_VISIBLE_DURATION] at h1
    push_neg
    linarith
  have hdone : ¬ fadeOutStart d + TILE_FADE_OUT_DURATION ≤ e := not_le.mpr h2
  have hfi : ¬ e < d + TILE_FADE_IN_DURATION := by
    simp only [fadeOutStart, TILE_FADE_IN_DURATION, TILE_VISIBLE_DURATION] at h1 ⊢
    push_neg
    linarith
  have hmin : min 1 ((e - fadeOutStart d) / TILE_FADE_OUT_DURATION)
      = (e - fadeOutStart d) / TILE_FADE_OUT_DURATION := by
    refine min_eq_right ?_
    rw [div_le_one (by norm_num [TILE_FADE_OUT_DURATION])]
    linarith
  unfold tileOpacity
  rw [if_neg hd, if_neg hdone, if_neg hfi, if_pos h1, hmin]

theorem tileOpacity_bounds (d e o : ℚ) (h : tileOpacity d e = some o) :
    0 ≤ o ∧ o ≤ TILE_BASE_OPACITY := by
  unfold tileOpacity at h
  split_ifs at h with hd hdone hfi hfo
  · -- fade-in branch
    have h1 : d ≤ e := not_lt.mp hd
    injection h with h
    subst h
    constructor
    · have : (0:ℚ) ≤ (e - d) / TILE_FADE_IN_DURATION := by
        apply div_nonneg (by linarith) (by norm_num [TILE_FADE_IN_DURATION])
      have hb : (0:ℚ) ≤ TILE_BASE_OPACITY := by norm_num [TILE_BASE_OPACITY]
      exact mul_nonneg hb this
    · have : (e - d) / TILE_FADE_IN_DURATION ≤ 1 := by
        rw [div_le_one (by norm_num [TILE_FADE_IN_DURATION])]
        simp only [TILE_FADE_IN_DURATION] at hfi ⊢
        linarith
      nlinarith [this, show (0:ℚ) < TILE_BASE_OPACITY by norm_num [TILE_BASE_OPACITY]]
  · -- fade-out branch
    injection h with h
    subst h
    have hx0 : (0:ℚ) ≤ (e - fadeOutStart d) / TILE_FADE_OUT_DURATION := by
      apply div_nonneg (by linarith) (by norm_num [TILE_FADE_OUT_DURATION])
    have hmin0 : (0:ℚ) ≤ min 1 ((e - fadeOutStart d) / TILE_FADE_OUT_DURATION) :=
      le_min (by norm_num) hx0
    have hmin1 : min 1 ((e - fadeOutStart d) / TILE_FADE_OUT_DURATION) ≤ 1 :=
      min_le_left _ _
    constructor
    · nlinarith [show (0:ℚ) < TILE_BASE_OPACITY by norm_num [TILE_BASE_OPACITY]]
    · nlinarith [show (0:ℚ) < TILE_BASE_OPACITY by norm_num [TILE_BASE_OPACITY]]
  · -- hold branch
    injection h with h
    subst h
    constructor
    · norm_num [TILE_BASE_OPACITY]
    · exact le_refl _

/-- **C2.** For every tile and elapsed time, opacity is the pure function
`tileOpacity` of `elapsed`: it is not drawn before `displayAt`; strictly
increasing on `[displayAt, displayAt + 0.05]`; equal to `TILE_BASE_OPACITY =
0.82` throughout the hold phase; strictly decreasing during the 0.4 s
fade-out; not drawn at or after `fadeOutStart + 0.4`; it agrees with the hold
value at both internal phase boundaries (piecewise-linear continuity) and
every drawn value lies in `[0, 0.82]`. -/
theorem C2_tileOpacity_phases :
    (∀ d e : ℚ, e < d → tileOpacity d e = none) ∧
    (∀ d e₁ e₂ : ℚ, d ≤ e₁ → e₁ < e₂ → e₂ ≤ d + TILE_FADE_IN_DURATION →
      ∃ o₁ o₂, tileOpacity d e₁ = some o₁ ∧ tileOpacity d e₂ = some o₂ ∧ o₁ < o₂) ∧
    (∀ d e : ℚ, d + TILE_FADE_IN_DURATION ≤ e → e < fadeOutStart d →
      tileOpacity d e = some TILE_BASE_OPACITY) ∧
    (∀ d e₁ e₂ : ℚ, fadeOutStart d ≤ e₁ → e₁ < e₂ →
        e₂ < fadeOutStart d + TILE_FADE_OUT_DURATION →
      ∃ o₁ o₂, tileOpacity d e₁ = some o₁ ∧ tileOpacity d e₂ = some o₂ ∧ o₂ < o₁) ∧
    (∀ d e : ℚ, fadeOutStart d + TILE_FADE_OUT_DURATION ≤ e → tileOpacity d e = none) ∧
    (∀ d : ℚ, tileOpacity d (d + TILE_FADE_IN_DURATION) = some TILE_BASE_OPACITY) ∧
    (∀ d : ℚ, tileOpacity d (fadeOutStart d)
      = some (TILE_BASE_OPACITY * (1 - (fadeOutStart d - fadeOutStart d)
          / TILE_FADE_OUT_DURATION))
      ∧ TILE_BASE_OPACITY * (1 - (fadeOutStart d - fadeOutStart d)
          / TILE_FADE_OUT_DURATION) = TILE_BASE_OPACITY) ∧
    (∀ d e o : ℚ, tileOpacity d e = some o → 0 ≤ o ∧ o ≤ TILE_BASE_OPACITY) := by
  have hdiv20 : ∀ x : ℚ, x / TILE_FADE_IN_DURATION = 20 * x := by
    intro x
    simp only [TILE_FADE_IN_DURATION]
    ring
  have hdiv04 : ∀ x : ℚ, x / TILE_FADE_OUT_DURATION = (5/2) * x := by
    intro x
    simp only [TILE_FADE_OUT_DURATION]
    ring
  have hB : (0:ℚ) < TILE_BASE_OPACITY := by norm_num [TILE_BASE_OPACITY]
  refine ⟨tileOpacity_before, ?_, tileOpacity_hold, ?_, tileOpacity_done, ?_, ?_,
    tileOpacity_bounds⟩
  · -- strict increase on the closed fade-in interval
    intro d e₁ e₂ h1 h2 h3
    have he₁ : e₁ < d + TILE_FADE_IN_DURATION := lt_of_lt_of_le h2 h3
    have hv₁ := tileOpacity_fadeIn d e₁ h1 he₁
    rcases lt_or_eq_of_le h3 with h3' | h3'
    · have hv₂ := tileOpacity_fadeIn d e₂ (by linarith) h3'
      refine ⟨_, _, hv₁, hv₂, ?_⟩
      rw [hdiv20, hdiv20]
      nlinarith
    · have hv₂ : tileOpacity d e₂ = some TILE_BASE_OPACITY := by
        refine tileOpacity_hold d e₂ (le_of_eq h3'.symm) ?_
        simp only [fadeOutStart, TILE_VISIBLE_DURATION]
        linarith [h3'.symm.le]
      refine ⟨_, _, hv₁, hv₂, ?_⟩
      rw [hdiv20]
      have he₁d : e₁ - d < TILE_FADE_IN_DURATION := by linarith
      simp only [TILE_FADE_IN_DURATION] at he₁d
      nlinarith
  · -- strict decrease during fade-out
    intro d e₁ e₂ h1 h2 h3
    have hv₁ := tileOpacity_fadeOut d e₁ h1 (by linarith)
    have hv₂ := tileOpacity_fadeOut d e₂ (by linarith) h3
    refine ⟨_, _, hv₁, hv₂, ?_⟩
    rw [hdiv04, hdiv04]
    nlinarith
  · -- fade-in meets the hold value at `displayAt + FADE_IN`
    intro d
    refine tileOpacity_hold d _ le_rfl ?_
    simp only [fadeOutStart, TILE_VISIBLE_DURATION]
    linarith
  · -- fade-out starts exactly at the hold value (no jump at `fadeOutStart`)
    intro d
    refine ⟨tileOpacity_fadeOut d _ le_rfl ?_, ?_⟩
    · norm_num [TILE_FADE_OUT_DURATION]
    · rw [sub_self, zero_div]
      ring

/-- Witness for C2, instantiated at `displayAt = 1` with sample elapsed times
in each phase. -/
theorem C2_tileOpacity_phases_witness :
    tileOpacity 1 (1/2) = none ∧
    (∃ o₁ o₂, tileOpacity 1 1 = some o₁ ∧ tileOpacity 1 (21/20) = some o₂ ∧ o₁ < o₂) ∧
    tileOpacity 1 3 = some TILE_BASE_OPACITY ∧
    (∃ o₁ o₂, tileOpacity 1 (51/10) = some o₁ ∧ tileOpacity 1 (53/10) = some o₂ ∧ o₂ < o₁) ∧
    tileOpacity 1 6 = none := by
  obtain ⟨h1, h2, h3, h4, h5, -, -, -⟩ := C2_tileOpacity_phases
  exact ⟨h1 1 (1/2) (by norm_num),
    h2 1 1 (21/20) (by norm_num) (by norm_num) (by norm_num [TILE_FADE_IN_DURATION]),
    h3 1 3 (by norm_num [TILE_FADE_IN_DURATION])
      (by norm_num [fadeOutStart, TILE_FADE_IN_DURATION, TILE_VISIBLE_DURATION]),
    h4 1 (51/10) (53/10)
      (by norm_num [fadeOutStart, TILE_FADE_IN_DURATION, TILE_VISIBLE_DURATION])
      (by norm_num)
      (by norm_num [fadeOutStart, TILE_FADE_IN_DURATION, TILE_VISIBLE_DURATION,
        TILE_FADE_OUT_DURATION]),
    h5 1 6 (by norm_num [fadeOutStart, TILE_FADE_IN_DURATION, TILE_VISIBLE_DURATION,
      TILE_FADE_OUT_DURATION])⟩

/-! ## Session end time and the end-of-session transition
(GameScreen.tsx lines 377-382 and 452-462) -/

/-- `gameEndTimeRef` as computed by `runBeforeCountdown`: only set when the
display-time list is non-empty, to
`max(...times) + FADE_IN + VISIBLE + FADE_OUT + END_SCREEN_DELAY`. -/
def computeGameEndTime (times : List ℚ) : Option ℚ :=
  match times with
  | [] => none
  | t :: ts => some (ts.foldl max t + TILE_FADE_IN_DURATION + TILE_VISIBLE_DURATION
      + TILE_FADE_OUT_DURATION + END_SCREEN_DELAY)

/-- The end-of-session flags touched by the per-frame check: `showEndScreen`
(false while Playing, true once Ended) and whether the audio element is
playing. -/
structure EndState where
  showEndScreen : Bool
  audioPlaying : Bool
deriving DecidableEq

/-- One frame of the end-of-session check inside `hands.onResults`:
`if (gameEndTimeRef.current != null && elapsed >= gameEndTimeRef.current &&
!showEndScreen) { setShowEndScreen(true); audioRef.current.pause(); }`. -/
def frameEndCheck (endTime : Option ℚ) (elapsed : ℚ) (s : EndState) : EndState :=
  match endTime with
  | none => s
  | some et => if et ≤ elapsed ∧ s.showEndScreen = false then
      { showEndScreen := true, audioPlaying := false }
    else s

/-- Fold the per-frame end check over a sequence of frame elapsed times. -/
def runFrames (endTime : Option ℚ) (frames : List ℚ) (s : EndState) : EndState :=
  frames.foldl (fun st e => frameEndCheck endTime e st) s

/-- State at the moment Playing begins: end screen hidden, audio playing. -/
def playingState : EndState := { showEndScreen := false, audioPlaying := true }

theorem runFrames_below (et : ℚ) (frames : List ℚ)
    (h : ∀ e ∈ frames, e < et) :
    runFrames (some et) frames playingState = playingState := by
  induction frames with
  | nil => rfl
  | cons f fs ih =>
    have hf : f < et := h f (List.mem_cons_self f fs)
    have hstep : frameEndCheck (some et) f playingState = playingState := by
      simp only [frameEndCheck, playingState]
      rw [if_neg]
      rintro ⟨hle, -⟩
      exact absurd hf (not_lt.mpr hle)
    unfold runFrames at ih ⊢
    rw [List.foldl_cons, hstep]
    exact ih (fun e he => h e (List.mem_cons_of_mem f he))

/-- **C1.** For every non-empty schedule the session end time equals the
maximum `displayAt` plus `FADE_IN ( = 0.05)` plus `VISIBLE ( = 4)` plus
`FADE_OUT ( = 0.4)` plus `END_SCREEN_DELAY ( = 3)`, and — starting from the
Playing state — the session transitions to Ended (end screen shown, audio
stopped) exactly at the first frame whose elapsed time reaches that end time:
frames strictly below it leave the state untouched, and the first frame at or
above it flips it. -/
theorem C1_session_end (t : ℚ) (ts : List ℚ) (pre : List ℚ) (f : ℚ)
    (hpre : ∀ e ∈ pre, e < ts.foldl max t + TILE_FADE_IN_DURATION
      + TILE_VISIBLE_DURATION + TILE_FADE_OUT_DURATION + END_SCREEN_DELAY)
    (hf : ts.foldl max t + TILE_FADE_IN_DURATION + TILE_VISIBLE_DURATION
      + TILE_FADE_OUT_DURATION + END_SCREEN_DELAY ≤ f) :
    computeGameEndTime (t :: ts)
      = some (ts.foldl max t + TILE_FADE_IN_DURATION + TILE_VISIBLE_DURATION
          + TILE_FADE_OUT_DURATION + END_SCREEN_DELAY) ∧
    runFrames (computeGameEndTime (t :: ts)) pre playingState = playingState ∧
    runFrames (computeGameEndTime (t :: ts)) (pre ++ [f]) playingState
      = { showEndScreen := true, audioPlaying := false } := by
  have hct : computeGameEndTime (t :: ts)
      = some (ts.foldl max t + TILE_FADE_IN_DURATION + TILE_VISIBLE_DURATION
          + TILE_FADE_OUT_DURATION + END_SCREEN_DELAY) := rfl
  have hbelow := runFrames_below _ pre hpre
  refine ⟨hct, by rw [hct]; exact hbelow, ?_⟩
  rw [hct]
  unfold runFrames at hbelow ⊢
  rw [List.foldl_append, hbelow]
  simp only [List.foldl_cons, List.foldl_nil, frameEndCheck, playingState]
  rw [if_pos ⟨hf, trivial⟩]

/-- Witness for C1 at `displayAt = [0, 1, 2]`: the end time is
`2 + 0.05 + 4 + 0.4 + 3 = 9.45 = 189/20`; the frames `0, 5, 9` do not end the
session and the frame at `9.45` does. -/
theorem C1_session_end_witness :
    computeGameEndTime [0, 1, 2] = some (189/20) ∧
    runFrames (computeGameEndTime [0, 1, 2]) [0, 5, 9] playingState = playingState ∧
    runFrames (computeGameEndTime [0, 1, 2]) [0, 5, 9, 189/20] playingState
      = { showEndScreen := true, audioPlaying := false } := by
  have hmax : [(1:ℚ), 2].foldl max 0 = 2 := by
    simp only [List.foldl_cons, List.foldl_nil, max_def]
    norm_num
  obtain ⟨h1, h2, h3⟩ := C1_session_end 0 [1, 2] [0, 5, 9] (189/20)
    (by
      intro e he
      rw [hmax]
      norm_num [TILE_FADE_IN_DURATION, TILE_VISIBLE_DURATION, TILE_FADE_OUT_DURATION,
        END_SCREEN_DELAY]
      fin_cases he <;> norm_num)
    (by
      rw [hmax]
      norm_num [TILE_FADE_IN_DURATION, TILE_VISIBLE_DURATION, TILE_FADE_OUT_DURATION,
        END_SCREEN_DELAY])
  refine ⟨?_, h2, ?_⟩
  · rw [h1, hmax]
    norm_num [TILE_FADE_IN_DURATION, TILE_VISIBLE_DURATION, TILE_FADE_OUT_DURATION,
      END_SCREEN_DELAY]
  · have : ([0, 5, 9] : List ℚ) ++ [189/20] = [0, 5, 9, 189/20] := rfl
    rw [← this]
    exact h3

/-! ## Energy normalization (GameScreen.tsx lines 468-470 and 489) -/

/-- `minE = energies.length > 0 ? Math.min(...energies) : 0`. -/
def minEnergy (es : List ℚ) : ℚ :=
  match es with
  | [] => 0
  | e :: rest => rest.foldl min e

/-- `maxE = energies.length > 0 ? Math.max(...energies) : 1`. -/
def maxEnergy (es : List ℚ) : ℚ :=
  match es with
  | [] => 1
  | e :: rest => rest.foldl max e

/-- `energyRange = maxE - minE || 1` (JavaScript `||` replaces a zero range
by `1` to avoid dividing by zero). -/
def energyRange (es : List ℚ) : ℚ :=
  if maxEnergy es - minEnergy es = 0 then 1 else maxEnergy es - minEnergy es

/-- `energyNorm = energies[i] != null ? (energies[i] - minE) / energyRange :
0.5`: the `0.5` default applies only when index `i` has no energy entry. -/
def energyNorm (es : List ℚ) (i : ℕ) : ℚ :=
  match es.get? i with
  | some e => (e - minEnergy es) / energyRange es
  | none => 1/2

theorem foldl_min_le_init (l : List ℚ) (a : ℚ) : l.foldl min a ≤ a := by
  induction l generalizing a with
  | nil => exact le_refl a
  | cons b t ih => exact le_trans (ih (min a b)) (min_le_left a b)

theorem foldl_min_le_mem (l : List ℚ) (a x : ℚ) (hx : x ∈ l) : l.foldl min a ≤ x := by
  induction l generalizing a with
  | nil => cases hx
  | cons b t ih =>
    rcases List.mem_cons.mp hx with h | h
    · subst h
      exact le_trans (foldl_min_le_init t (min a x)) (min_le_right a x)
    · exact ih (min a b) h

theorem le_foldl_max_init (l : List ℚ) (a : ℚ) : a ≤ l.foldl max a := by
  induction l generalizing a with
  | nil => exact le_refl a
  | cons b t ih => exact le_trans (le_max_left a b) (ih (max a b))

theorem le_foldl_max_mem (l : List ℚ) (a x : ℚ) (hx : x ∈ l) : x ≤ l.foldl max a := by
  induction l generalizing a with
  | nil => cases hx
  | cons b t ih =>
    rcases List.mem_cons.mp hx with h | h
    · subst h
      exact le_trans (le_max_right a x) (le_foldl_max_init t (max a x))
    · exact ih (max a b) h

theorem minEnergy_le_mem (es : List ℚ) (e : ℚ) (he : e ∈ es) : minEnergy es ≤ e := by
  match es with
  | [] => cases he
  | a :: rest =>
    rcases List.mem_cons.mp he with h | h
    · subst h
      exact foldl_min_le_init rest e
    · exact foldl_min_le_mem rest a e h

theorem mem_le_maxEnergy (es : List ℚ) (e : ℚ) (he : e ∈ es) : e ≤ maxEnergy es := by
  match es with
  | [] => cases he
  | a :: rest =>
    rcases List.mem_cons.mp he with h | h
    · subst h
      exact le_foldl_max_init rest e
    · exact le_foldl_max_mem rest a e h

theorem foldl_min_const (l : List ℚ) (c : ℚ) (h : ∀ x ∈ l, x = c) :
    l.foldl min c = c := by
  induction l with
  | nil => rfl
  | cons b t ih =>
    have hb : b = c := h b (List.mem_cons_self b t)
    subst hb
    rw [List.foldl_cons, min_self]
    exact ih (fun x hx => h x (List.mem_cons_of_mem b hx))

theorem energyNorm_get_some (es : List ℚ) (i : ℕ) (e : ℚ) (hg : es.get? i = some e) :
    energyNorm es i = (e - minEnergy es) / energyRange es := by
  unfold energyNorm
  rw [hg]

theorem energyNorm_get_none (es : List ℚ) (i : ℕ) (hg : es.get? i = none) :
    energyNorm es i = 1/2 := by
  unfold energyNorm
  rw [hg]

/-- **C3 counterexample.** On the constant energy set `[2, 2]` the code
computes `energyNorm = (2 - 2) / 1 = 0`, not `0.5` as the claim states: the
`|| 1` divide-by-zero guard replaces the range, not the resulting quotient,
and the `0.5` default applies only to a missing energy entry. -/
theorem C3_energyNorm_constant_counterexample :
    energyNorm [2, 2] 0 = 0 ∧ energyNorm [2, 2] 0 ≠ 1/2 := by
  have h : energyNorm [2, 2] 0 = 0 := by
    simp [energyNorm, minEnergy, maxEnergy, energyRange]
  exact ⟨h, by rw [h]; norm_num⟩

/-- **C3 (amended).** `energyNorm` always lies in `[0, 1]` (for any energy
set, the non-degenerate ones included); but on a constant energy set every
tile whose index has an energy entry gets `energyNorm = 0` — the `0.5`
default applies only when the entry at that index is missing. -/
theorem C3_energyNorm_range :
    (∀ (es : List ℚ) (i : ℕ), 0 ≤ energyNorm es i ∧ energyNorm es i ≤ 1) ∧
    (∀ (es : List ℚ) (i : ℕ) (e c : ℚ), (∀ x ∈ es, x = c) → es.get? i = some e →
      energyNorm es i = 0) ∧
    (∀ (es : List ℚ) (i : ℕ), es.get? i = none → energyNorm es i = 1/2) := by
  have hsome := energyNorm_get_some
  have hnone := energyNorm_get_none
  refine ⟨?_, ?_, hnone⟩
  · intro es i
    cases hg : es.get? i with
    | none => rw [hnone es i hg]; norm_num
    | some e =>
      rw [hsome es i e hg]
      have he : e ∈ es := List.get?_mem hg
      have hmin := minEnergy_le_mem es e he
      have hmax := mem_le_maxEnergy es e he
      unfold energyRange
      split_ifs with h0
      · have hems : e - minEnergy es = 0 := by linarith
        rw [hems]
        norm_num
      · have hpos : 0 < maxEnergy es - minEnergy es :=
          lt_of_le_of_ne (by linarith) (Ne.symm h0)
        constructor
        · exact div_nonneg (by linarith) (le_of_lt hpos)
        · rw [div_le_one hpos]
          linarith
  · intro es i e c hc hg
    have he : e ∈ es := List.get?_mem hg
    have hec : e = c := hc e he
    have hmin : minEnergy es = c := by
      match es, he with
      | a :: rest, _ =>
        have ha : a = c := hc a (List.mem_cons_self a rest)
        subst ha
        exact foldl_min_const rest a (fun x hx => hc x (List.mem_cons_of_mem a hx))
    rw [hsome es i e hg, hmin, hec, sub_self, zero_div]

/-- Witness for C3 (amended): on `[1, 3]` the norms are `0` and `1`; on the
constant set `[2, 2]` the norm is `0`; a missing entry defaults to `1/2`. -/
theorem C3_energyNorm_range_witness :
    (0 ≤ energyNorm [1, 3] 1 ∧ energyNorm [1, 3] 1 ≤ 1) ∧
    energyNorm [2, 2] 0 = 0 ∧
    energyNorm [2, 2] 5 = 1/2 := by
  obtain ⟨h1, h2, h3⟩ := C3_energyNorm_range
  exact ⟨h1 [1, 3] 1, h2 [2, 2] 0 2 2 (by
    intro x hx
    rcases List.mem_cons.mp hx with h | h
    · exact h
    · rcases List.mem_cons.mp h with h | h
      · exact h
      · cases h) (by simp), h3 [2, 2] 5 (by simp)⟩

/-! ## Session timeline builder (`runBeforeCountdown`, GameScreen.tsx
lines 331-399) -/

/-- A tile in normalized `[0,1] × [0,1]` coordinates. -/
structure Tile where
  x : ℚ
  y : ℚ
deriving DecidableEq

/-- Outcome of one `fetch`: the promise either rejects (network failure) or
resolves with a response whose `ok` flag reflects the HTTP status. -/
inductive FetchOutcome (α : Type) where
  | reject
  | resp (ok : Bool) (body : α)

/-- Parsed JSON body of `POST /beats/create_beats`; each field may be absent
(the source guards every one with `?? ...`). `all_points` carries each
point's `energy` field, itself possibly absent (`p.energy ?? 0`). -/
structure BeatBody where
  timestamps : Option (List ℚ)
  types : Option (List String)
  all_points : Option (List (Option ℚ))

/-- Parsed JSON body of `POST /tiles/generate`. `x = none` models a body
without an `x` array (e.g. an error payload), on which `tilesData.x.map`
throws a TypeError. A missing `y` entry would give `NaN` in JavaScript; the
claims under study never exercise that path and the model substitutes `0`. -/
structure TilesBody where
  x : Option (List ℚ)
  y : List ℚ

/-- The per-session data `runBeforeCountdown` writes into the refs before it
calls `setCountdown(5)`. -/
structure Schedule where
  tiles : List Tile
  displayTimes : List ℚ
  beatTypes : List String
  energies : List ℚ
  endTime : Option ℚ

/-- The builder pipeline of `runBeforeCountdown`, minus the early-exit
`cancelled` checks (teardown): the async function has **no** try/catch, so a
rejected fetch in either step — and a tiles body without an `x` array —
propagates as a rejection (`Except.error`); only a non-ok beat response is
degraded to the placeholder empty timeline. `Except.ok s` means the function
reaches `setCountdown(5)` with the refs holding `s`. -/
def runBeforeCountdown (w h : ℚ) (beat : FetchOutcome BeatBody)
    (tilesRes : FetchOutcome TilesBody) : Except Unit Schedule :=
  match beat with
  | .reject => .error ()
  | .resp ok body =>
    let beatTimestamps := if ok then body.timestamps.getD [] else []
    let beatTypes := if ok then body.types.getD [] else []
    let energies := if ok then (body.all_points.getD []).map (fun p => p.getD 0) else []
    let count := max 1 beatTimestamps.length
    match tilesRes with
    | .reject => .error ()
    | .resp _ tbody =>
      match tbody.x with
      | none => .error ()
      | some xs =>
        let tiles : List Tile := (List.range xs.length).map (fun i =>
          { x := xs.getD i 0 / w, y := tbody.y.getD i 0 / h })
        let displayTimes := if 0 < beatTimestamps.length then beatTimestamps
          else (List.range count).map (fun i => (i : ℚ) * (1/2))
        .ok { tiles := tiles, displayTimes := displayTimes, beatTypes := beatTypes,
              energies := energies, endTime := computeGameEndTime displayTimes }

theorem runBeforeCountdown_fallback (w h : ℚ) (ok tok : Bool) (body : BeatBody)
    (tb : TilesBody) (xs : List ℚ)
    (hts : ok = true → body.timestamps.getD [] = [])
    (hx : tb.x = some xs) :
    runBeforeCountdown w h (.resp ok body) (.resp tok tb)
      = .ok { tiles := (List.range xs.length).map (fun i =>
                ({ x := xs.getD i 0 / w, y := tb.y.getD i 0 / h } : Tile)),
              displayTimes := [0],
              beatTypes := if ok then body.types.getD [] else [],
              energies := if ok then (body.all_points.getD []).map (fun p => p.getD 0)
                else [],
              endTime := computeGameEndTime [0] } := by
  have hempty : (if ok then body.timestamps.getD [] else []) = [] := by
    cases ok
    · simp
    · simpa using hts rfl
  simp only [runBeforeCountdown, hx, hempty]
  have hr : List.range 1 = [0] := rfl
  simp [hr]

/-- **C4 counterexample.** With an empty `timestamps` array the fallback count
is `max(1, timestamps.length) = 1` — not `max(1, tiles.length)`: even when the
layout service returns 5 tiles the builder produces the single display time
`[0]`, not the five times `0, 0.5, 1, 1.5, 2`. -/
theorem C4_fallback_counterexample :
    (runBeforeCountdown 100 100
        (.resp true ⟨some [], some [], some []⟩)
        (.resp true ⟨some [10, 20, 30, 40, 50], [10, 20, 30, 40, 50]⟩)).toOption.map
      Schedule.displayTimes = some [0] ∧
    (runBeforeCountdown 100 100
        (.resp true ⟨some [], some [], some []⟩)
        (.resp true ⟨some [10, 20, 30, 40, 50], [10, 20, 30, 40, 50]⟩)).toOption.map
      (fun s => s.tiles.length) = some 5 ∧
    some ([0] : List ℚ) ≠ some [0, 1/2, 1, 3/2, 2] := by
  have h := runBeforeCountdown_fallback 100 100 true true
    ⟨some [], some [], some []⟩ ⟨some [10, 20, 30, 40, 50], [10, 20, 30, 40, 50]⟩
    [10, 20, 30, 40, 50] (fun _ => rfl) rfl
  rw [h]
  refine ⟨rfl, ?_, by simp⟩
  simp [Except.toOption]

/-- **C4 (amended).** If the beat step yields zero timestamps (a non-success
response, or a success whose `timestamps` array is missing or empty), the
builder synthesizes a fallback schedule with `count = max(1,
timestamps.length) = 1` display times spaced 0.5 s apart starting at 0 —
i.e. exactly the single display time `[0]` — regardless of how many tiles
the layout service returns. -/
theorem C4_fallback_schedule (w h : ℚ) (ok tok : Bool) (body : BeatBody)
    (tb : TilesBody) (xs : List ℚ)
    (hts : ok = true → body.timestamps.getD [] = [])
    (hx : tb.x = some xs) :
    ∃ s : Schedule, runBeforeCountdown w h (.resp ok body) (.resp tok tb) = .ok s
      ∧ s.displayTimes = [0] ∧ s.tiles.length = xs.length :=
  ⟨_, runBeforeCountdown_fallback w h ok tok body tb xs hts hx, rfl, by simp⟩

/-- Witness for C4 (amended): empty timestamps and a 5-tile layout response
give one fallback display time and 5 tiles. -/
theorem C4_fallback_schedule_witness :
    ∃ s : Schedule, runBeforeCountdown 100 100
        (.resp true ⟨some [], some [], some []⟩)
        (.resp true ⟨some [10, 20, 30, 40, 50], [10, 20, 30, 40, 50]⟩) = .ok s
      ∧ s.displayTimes = [0] ∧ s.tiles.length = [10, 20, 30, 40, 50].length :=
  C4_fallback_schedule 100 100 true true ⟨some [], some [], some []⟩
    ⟨some [10, 20, 30, 40, 50], [10, 20, 30, 40, 50]⟩ [10, 20, 30, 40, 50]
    (fun _ => rfl) rfl

/-- **C5 counterexample.** The session-setup pipeline does reject to its
caller: `runBeforeCountdown` has no try/catch, so a rejected `fetch` in
either step propagates and the countdown never starts. -/
theorem C5_builder_rejects_counterexample :
    runBeforeCountdown 100 100 .reject (.resp true ⟨some [10], [10]⟩)
      = .error () ∧
    runBeforeCountdown 100 100 (.resp true ⟨some [1], some [], some []⟩) .reject
      = .error () :=
  ⟨rfl, rfl⟩

/-- **C5 (amended).** Only a non-success beat-service HTTP response is
handled: it degrades to the placeholder empty timeline (hence the `[0]`
fallback schedule) and countdown setup proceeds.  A rejected fetch in either
step, and a tiles response whose body has no `x` array, propagate as a
rejection of the async builder and the countdown never starts. -/
theorem C5_builder_failure_modes (w h : ℚ) (tok : Bool) (body : BeatBody)
    (tb : TilesBody) :
    (∀ xs, tb.x = some xs →
      ∃ s, runBeforeCountdown w h (.resp false body) (.resp tok tb) = .ok s
        ∧ s.displayTimes = [0]) ∧
    runBeforeCountdown w h .reject (.resp tok tb) = .error () ∧
    runBeforeCountdown w h (.resp true body) .reject = .error () ∧
    (tb.x = none → ∀ ok, runBeforeCountdown w h (.resp ok body) (.resp tok tb)
      = .error ()) := by
  refine ⟨?_, rfl, rfl, ?_⟩
  · intro xs hx
    exact ⟨_, runBeforeCountdown_fallback w h false tok body tb xs
      (fun hcontra => Bool.noConfusion hcontra) hx, rfl⟩
  · intro hx ok
    cases ok <;> simp [runBeforeCountdown, hx]

/-- Witness for C5 (amended) at a concrete tile body carrying an `x` array. -/
theorem C5_builder_failure_modes_witness :
    (∃ s, runBeforeCountdown 100 100 (.resp false ⟨none, none, none⟩)
        (.resp true ⟨some [10], [10]⟩) = .ok s ∧ s.displayTimes = [0]) ∧
    runBeforeCountdown 100 100 .reject (.resp true ⟨some [10], [10]⟩)
      = .error () ∧
    runBeforeCountdown 100 100 (.resp true ⟨none, none, none⟩) .reject
      = .error () := by
  obtain ⟨h1, h2, h3, -⟩ := C5_builder_failure_modes 100 100 true
    ⟨none, none, none⟩ ⟨some [10], [10]⟩
  exact ⟨h1 [10] rfl, h2, h3⟩

/-! ## Per-frame tile drawing (GameScreen.tsx lines 471-505) -/

/-- The effect of the canvas calls for one drawn tile: circle center (canvas
pixels), radius, `globalAlpha`, and whether the "high" fill color is used. -/
structure DrawCmd where
  center : ℚ × ℚ
  radius : ℚ
  opacity : ℚ
  isHigh : Bool

/-- The body of the per-frame tile loop for index `i`: `displayAt = times[i]
?? 0`; `none` when the loop `continue`s (tile not yet visible or already
faded), otherwise the drawn circle with `cx = (1 - x) * w`, `cy = y * h`,
`radius = TILE_RADIUS * (1 + energyNorm * ENERGY_RADIUS_SCALE)` and the color
picked by `beatTypes[i] === "high"`. -/
def drawTileAt (w h elapsed : ℚ) (times es : List ℚ) (beatTypes : List String)
    (tile : Tile) (i : ℕ) : Option DrawCmd :=
  (tileOpacity ((times.get? i).getD 0) elapsed).map (fun o =>
    { center := ((1 - tile.x) * w, tile.y * h)
      radius := TILE_RADIUS * (1 + energyNorm es i * ENERGY_RADIUS_SCALE)
      opacity := o
      isHigh := beatTypes.get? i == some "high" })

/-- The whole `for (let i = 0; i < tiles.length; i++)` loop of one frame. -/
def renderFrame (w h elapsed : ℚ) (times es : List ℚ) (beatTypes : List String)
    (tiles : List Tile) : List (Option DrawCmd) :=
  tiles.enum.map (fun p => drawTileAt w h elapsed times es beatTypes p.2 p.1)

/-- **C9.** Every drawn tile's circle center is `((1 - x) * w, y * h)`: the
normalized x coordinate is horizontally mirrored at draw time. -/
theorem C9_mirrored_center (w h elapsed : ℚ) (times es : List ℚ)
    (beatTypes : List String) (tile : Tile) (i : ℕ) (cmd : DrawCmd)
    (hdraw : drawTileAt w h elapsed times es beatTypes tile i = some cmd) :
    cmd.center = ((1 - tile.x) * w, tile.y * h) := by
  unfold drawTileAt at hdraw
  cases hop : tileOpacity ((times.get? i).getD 0) elapsed with
  | none =>
    rw [hop] at hdraw
    cases hdraw
  | some o =>
    rw [hop] at hdraw
    simp only [Option.map_some'] at hdraw
    injection hdraw with hcmd
    rw [← hcmd]

/-- Witness for C9: a tile at normalized `(1/4, 1/3)` on a 100 × 90 canvas is
drawn at center `(75, 30)`. -/
theorem C9_mirrored_center_witness :
    ∃ cmd, drawTileAt 100 90 1 [0] [1] ["high"] ⟨1/4, 1/3⟩ 0 = some cmd
      ∧ cmd.center = ((1 - 1/4) * 100, (1/3) * 90)
      ∧ (1 - (1/4 : ℚ)) * 100 = 75 ∧ ((1/3 : ℚ)) * 90 = 30 := by
  have hget : (([0] : List ℚ).get? 0).getD 0 = 0 := rfl
  have hop : tileOpacity ((([0] : List ℚ).get? 0).getD 0) 1 = some TILE_BASE_OPACITY := by
    rw [hget]
    exact tileOpacity_hold 0 1 (by norm_num [TILE_FADE_IN_DURATION])
      (by norm_num [fadeOutStart, TILE_FADE_IN_DURATION, TILE_VISIBLE_DURATION])
  have hdraw : drawTileAt 100 90 1 [0] [1] ["high"] ⟨1/4, 1/3⟩ 0
      = some { center := ((1 - 1/4) * 100, (1/3) * 90)
               radius := TILE_RADIUS * (1 + energyNorm [1] 0 * ENERGY_RADIUS_SCALE)
               opacity := TILE_BASE_OPACITY
               isHigh := true } := by
    simp only [drawTileAt]
    rw [hop]
    rfl
  exact ⟨_, hdraw,
    C9_mirrored_center 100 90 1 [0] [1] ["high"] ⟨1/4, 1/3⟩ 0 _ hdraw,
    by norm_num, by norm_num⟩

/-- **C10.** The per-frame renderer is total under schedule index
misalignment: the loop emits one entry per tile regardless of the lengths of
the `times`, `energies` and `beatTypes` arrays; a tile index with no
timestamp entry gets `displayAt = times[i] ?? 0 = 0` and so is drawn from
session start through its whole visibility window; a tile index with no
energy entry gets `energyNorm = 0.5`, hence radius
`TILE_RADIUS * (1 + 0.5 * ENERGY_RADIUS_SCALE) = 91`. -/
theorem C10_renderer_total (w h elapsed : ℚ) (times es : List ℚ)
    (beatTypes : List String) (tiles : List Tile) (tile : Tile) (i : ℕ) :
    (renderFrame w h elapsed times es beatTypes tiles).length = tiles.length ∧
    (times.length ≤ i → 0 ≤ elapsed →
      elapsed < fadeOutStart 0 + TILE_FADE_OUT_DURATION →
      ∃ cmd, drawTileAt w h elapsed times es beatTypes tile i = some cmd) ∧
    (es.length ≤ i → energyNorm es i = 1/2 ∧
      (∀ cmd, drawTileAt w h elapsed times es beatTypes tile i = some cmd →
        cmd.radius = 91)) := by
  refine ⟨?_, ?_, ?_⟩
  · unfold renderFrame
    rw [List.length_map, List.enum_length]
  · intro hlen h0 hlt
    have hget : times.get? i = none := List.get?_eq_none.mpr hlen
    have hd0 : (times.get? i).getD 0 = 0 := by rw [hget]; rfl
    have hopac : ∃ o, tileOpacity 0 elapsed = some o := by
      rcases lt_or_le elapsed (0 + TILE_FADE_IN_DURATION) with hfi | hfi
      · exact ⟨_, tileOpacity_fadeIn 0 elapsed h0 hfi⟩
      · rcases lt_or_le elapsed (fadeOutStart 0) with hh | hh
        · exact ⟨_, tileOpacity_hold 0 elapsed hfi hh⟩
        · exact ⟨_, tileOpacity_fadeOut 0 elapsed hh hlt⟩
    obtain ⟨o, ho⟩ := hopac
    unfold drawTileAt
    rw [hd0, ho]
    exact ⟨_, rfl⟩
  · intro hlen
    have hget : es.get? i = none := List.get?_eq_none.mpr hlen
    have hnorm := energyNorm_get_none es i hget
    refine ⟨hnorm, ?_⟩
    intro cmd hdraw
    unfold drawTileAt at hdraw
    cases hop : tileOpacity ((times.get? i).getD 0) elapsed with
    | none =>
      rw [hop] at hdraw
      cases hdraw
    | some o =>
      rw [hop] at hdraw
      simp only [Option.map_some'] at hdraw
      injection hdraw with hcmd
      rw [← hcmd]
      show TILE_RADIUS * (1 + energyNorm es i * ENERGY_RADIUS_SCALE) = 91
      rw [hnorm]
      norm_num [TILE_RADIUS, ENERGY_RADIUS_SCALE]

/-- Witness for C10: one tile with empty `times`, `energies` and `beatTypes`
arrays still renders — the single tile is drawn at `elapsed = 2` and its
energy norm defaults to `1/2`. -/
theorem C10_renderer_total_witness :
    (renderFrame 100 100 2 [] [] [] [⟨1/2, 1/2⟩]).length = 1 ∧
    (∃ cmd, drawTileAt 100 100 2 [] [] [] ⟨1/2, 1/2⟩ 0 = some cmd) ∧
    energyNorm [] 0 = 1/2 := by
  obtain ⟨h1, h2, h3⟩ :=
    C10_renderer_total 100 100 2 [] [] [] [⟨1/2, 1/2⟩] ⟨1/2, 1/2⟩ 0
  refine ⟨by rw [h1]; simp, ?_, (h3 (by norm_num)).1⟩
  exact h2 (by norm_num) (by norm_num)
    (by norm_num [fadeOutStart, TILE_FADE_IN_DURATION, TILE_VISIBLE_DURATION,
      TILE_FADE_OUT_DURATION])

/-! ## Colour-CV tracking tick (the colour-tracking GameScreen variant,
`tick`, lines 269-346) -/

/-- Parsed body of a `POST /cv/track` response. -/
structure CVBody where
  found : Bool
  center : Option (ℚ × ℚ)
  bbox : Option (ℚ × ℚ × ℚ × ℚ)
  projected_point : Option (ℚ × ℚ)
  rotation_angle : Option ℚ

/-- The `cvResultRef` record the component publishes for the draw loop. -/
structure CVResult where
  center : ℚ × ℚ
  bbox : ℚ × ℚ × ℚ × ℚ
  projected_point : Option (ℚ × ℚ)
  rotation_angle : Option ℚ

/-- One CV tracking tick: from the previously published pointer state and
this tick's fetch outcome to the state published for this tick.  `w, h` is
the canvas size, `vw, vh` the source video size.  A rejected fetch lands in
the `catch` block (`setPosition(null); cvResultRef.current = null`); a
response with `found: false` or a missing `center`/`bbox` takes the `else`
branch with the same nulling; on success center and bbox are scaled by
`w/vw, h/vh` (and mirrored in x) before being published.  The previous state
is never consulted. -/
def cvTick (w h vw vh : ℚ) (prevPos : Option (ℤ × ℤ)) (prevCV : Option CVResult)
    (outcome : FetchOutcome CVBody) : Option (ℤ × ℤ) × Option CVResult :=
  match outcome with
  | .reject => (none, none)
  | .resp _ data =>
    match data.found, data.center, data.bbox with
    | true, some (cx, cy), some (bx, byv, bw, bh) =>
      (some (round (w - cx * (w / vw)), round (cy * (h / vh))),
       some { center := (w - cx * (w / vw), cy * (h / vh))
              bbox := (w - bx * (w / vw) - bw * (w / vw), byv * (h / vh),
                bw * (w / vw), bh * (h / vh))
              projected_point := data.projected_point.map
                (fun p => (p.1 * (w / vw), p.2 * (h / vh)))
              rotation_angle := data.rotation_angle })
    | _, _, _ => (none, none)

/-- **C7.** On every colour-CV tick the published pointer position is a
function of this tick's outcome alone — the previous position is never
retained: a rejected fetch, a `found:false` response, or a response lacking
`center`/`bbox` publishes `null`; a successful response publishes the center
scaled from source resolution to canvas resolution (and mirrored in x), and
the bbox scaled the same way. -/
theorem C7_cv_tick (w h vw vh : ℚ) (p p2 : Option (ℤ × ℤ)) (c c2 : Option CVResult)
    (outcome : FetchOutcome CVBody) :
    cvTick w h vw vh p c outcome = cvTick w h vw vh p2 c2 outcome ∧
    cvTick w h vw vh p c .reject = (none, none) ∧
    (∀ ok data, data.found = false ∨ data.center = none ∨ data.bbox = none →
      cvTick w h vw vh p c (.resp ok data) = (none, none)) ∧
    (∀ ok data cx cy bx byv bw bh, data.found = true →
      data.center = some (cx, cy) → data.bbox = some (bx, byv, bw, bh) →
      (cvTick w h vw vh p c (.resp ok data)).1
        = some (round (w - cx * (w / vw)), round (cy * (h / vh))) ∧
      ((cvTick w h vw vh p c (.resp ok data)).2.map CVResult.center)
        = some (w - cx * (w / vw), cy * (h / vh)) ∧
      ((cvTick w h vw vh p c (.resp ok data)).2.map CVResult.bbox)
        = some (w - bx * (w / vw) - bw * (w / vw), byv * (h / vh),
            bw * (w / vw), bh * (h / vh))) := by
  refine ⟨?_, rfl, ?_, ?_⟩
  · cases outcome with
    | reject => rfl
    | resp ok data => rfl
  · rintro ok ⟨found, center, bbox, pp, ra⟩ (hf | hc | hb)
    · simp only at hf
      subst hf
      rfl
    · simp only at hc
      subst hc
      cases found <;> rfl
    · simp only at hb
      subst hb
      cases found <;> cases center <;> rfl
  · intro ok data cx cy bx byv bw bh hf hc hb
    rcases data with ⟨found, center, bbox, pp, ra⟩
    simp only at hf hc hb
    subst hf
    subst hc
    subst hb
    exact ⟨rfl, rfl, rfl⟩

/-- Witness for C7: a failing tick and a successful tick at concrete values
(canvas 200 × 100, source 100 × 50). -/
theorem C7_cv_tick_witness :
    cvTick 200 100 100 50 (some (7, 7)) none
      (.resp true ⟨false, none, none, none, none⟩) = (none, none) ∧
    (cvTick 200 100 100 50 (some (7, 7)) none
      (.resp true ⟨true, some (10, 20), some (1, 2, 3, 4), none, none⟩)).1
      = some (round ((200 : ℚ) - 10 * (200 / 100)), round ((20 : ℚ) * (100 / 50))) := by
  obtain ⟨-, -, h3, h4⟩ := C7_cv_tick 200 100 100 50 (some (7, 7)) (some (7, 7))
    none none (.resp true ⟨false, none, none, none, none⟩)
  exact ⟨h3 true ⟨false, none, none, none, none⟩ (Or.inl rfl),
    (h4 true ⟨true, some (10, 20), some (1, 2, 3, 4), none, none⟩
      10 20 1 2 3 4 rfl rfl rfl).1⟩

/-! ## Camera permission and the countdown → audio transition
(GameScreen.tsx lines 410-423 and 574-608) -/

/-- Outcome of `navigator.mediaDevices.getUserMedia` in `startCamera`. -/
inductive CameraResult where
  | granted
  | denied
  | notFound
  | otherErr
deriving DecidableEq

/-- The error message `startCamera` stores for each outcome. -/
def cameraError : CameraResult → Option String
  | .granted => none
  | .denied => some "Camera access was denied. Allow camera in your browser to play."
  | .notFound => some "No camera found."
  | .otherErr => some "Could not access camera"

/-- Whether `startCamera` ends with a `MediaStream` in state. -/
def cameraStream : CameraResult → Bool
  | .granted => true
  | _ => false

/-- One countdown interval tick:
`setCountdown(prev => prev == null || prev <= 1 ? 0 : prev - 1)`. -/
def countdownTick : Option ℕ → Option ℕ
  | none => some 0
  | some p => if p ≤ 1 then some 0 else some (p - 1)

/-- The audio-start effect guard (line 411):
`if (!audioUrl || countdown !== 0) return;` — it never consults the camera
state; when it passes, `gameStartTimeRef` is recorded and `audio.play()` is
called. -/
def audioEffectFires (audioUrl : Option String) (countdown : Option ℕ) : Bool :=
  audioUrl.isSome && countdown == some 0

/-- The user-observable session pieces the camera outcome can influence. -/
structure SessionView where
  error : Option String
  videoShown : Bool
  audioPlaying : Bool
  startedAtSet : Bool
deriving DecidableEq

/-- The session after `runBeforeCountdown` resolved (`setCountdown(5)`),
`ticks` countdown-interval ticks fired, and `startCamera` finished with
`cam`: the video/canvas pair renders only when `stream && !error`, while the
audio-start effect looks only at `audioUrl` and `countdown`. -/
def sessionView (cam : CameraResult) (audioUrl : Option String) (ticks : ℕ) :
    SessionView :=
  let countdown := countdownTick^[ticks] (some 5)
  let fires := audioEffectFires audioUrl countdown
  { error := cameraError cam
    videoShown := cameraStream cam && (cameraError cam).isNone
    audioPlaying := fires
    startedAtSet := fires }

/-- **C8 counterexample.** With camera permission denied and an audio source
selected, after the five countdown ticks the audio-start effect still fires:
audio playback starts and `startedAt` is recorded — camera denial does not
block the Countdown → Playing transition. -/
theorem C8_camera_counterexample :
    (sessionView .denied (some "song.mp3") 5).audioPlaying = true ∧
    (sessionView .denied (some "song.mp3") 5).startedAtSet = true ∧
    (sessionView .denied (some "song.mp3") 5).error ≠ none := by
  refine ⟨rfl, rfl, ?_⟩
  intro hcontra
  cases hcontra

theorem countdown_reaches_zero (t : ℕ) (ht : 5 ≤ t) :
    countdownTick^[t] (some 5) = some 0 := by
  obtain ⟨k, rfl⟩ := Nat.exists_eq_add_of_le ht
  rw [Nat.add_comm, Function.iterate_add_apply]
  have h5 : countdownTick^[5] (some 5) = some 0 := rfl
  rw [h5]
  exact Function.iterate_fixed rfl k

/-- **C8 (amended).** A camera permission failure (denied, or no camera
found) surfaces a blocking error message and prevents the video/canvas —
and hence the tile rendering and tracking — from running (degraded mode),
but it does not block the countdown from reaching 0: once five countdown
ticks have fired, audio playback starts and `startedAt` is recorded for
every camera outcome alike. -/
theorem C8_camera_degraded (cam : CameraResult) (url : String) (ticks : ℕ)
    (hticks : 5 ≤ ticks) :
    (sessionView cam (some url) ticks).audioPlaying = true ∧
    (sessionView cam (some url) ticks).startedAtSet = true ∧
    ((sessionView cam (some url) ticks).videoShown = false ↔ cam ≠ .granted) ∧
    ((sessionView cam (some url) ticks).error ≠ none ↔ cam ≠ .granted) := by
  have hcd := countdown_reaches_zero ticks hticks
  have hfires : audioEffectFires (some url) (countdownTick^[ticks] (some 5))
      = true := by
    rw [hcd]
    rfl
  refine ⟨?_, ?_, ?_, ?_⟩
  · simp only [sessionView]
    exact hfires
  · simp only [sessionView]
    exact hfires
  · cases cam <;> simp [sessionView, cameraError, cameraStream]
  · cases cam <;> simp [sessionView, cameraError, cameraStream]

/-- Witness for C8 (amended): camera denied versus granted at 5 ticks. -/
theorem C8_camera_degraded_witness :
    (sessionView .denied (some "a.mp3") 5).audioPlaying = true ∧
    ((sessionView .denied (some "a.mp3") 5).videoShown = false ↔
      CameraResult.denied ≠ CameraResult.granted) ∧
    (sessionView .granted (some "a.mp3") 6).startedAtSet = true := by
  obtain ⟨h1, -, h3, -⟩ := C8_camera_degraded .denied "a.mp3" 5 (le_refl 5)
  obtain ⟨-, h2, -, -⟩ := C8_camera_degraded .granted "a.mp3" 6 (by norm_num)
  exact ⟨h1, h3, h2⟩

/-! ## Hardware-controller press debounce and score accumulation -/

/-- A `PRESS` frame from the hardware channel: arrival time in milliseconds
and the button index. -/
structure PressEvent where
  time : ℚ
  button : ℕ

/-- Modelled from the spec: the hardware controller adapter (the WebSocket
press/release channel with its 80 ms per-button debounce) is part of this
repository — the README documents the ESP32 server — but its client code is
not under `src/`; `GameScreen.tsx` line 304 leaves the score as a TODO
placeholder.  Per the spec, a `press` for the same button occurring within
the 80 ms refractory window of the previous accepted press is discarded, and
each accepted press increments the score. -/
def DEBOUNCE_WINDOW_MS : ℚ := 80

/-- Adapter state: per-button time of the last accepted press (most recent
entry first), and the accumulated score. -/
structure DebounceState where
  lastAccepted : List (ℕ × ℚ)
  score : ℕ

/-- Whether a press is accepted: no previously accepted press for the same
button lies within the refractory window. -/
def acceptPress (s : DebounceState) (e : PressEvent) : Bool :=
  match s.lastAccepted.lookup e.button with
  | some t => !(decide (e.time - t < DEBOUNCE_WINDOW_MS))
  | none => true

/-- Process one press event: a press within the refractory window of the
previous accepted press for that button is discarded; an accepted press is
recorded and increments the score. -/
def debounceStep (s : DebounceState) (e : PressEvent) : DebounceState :=
  if acceptPress s e then
    { lastAccepted := (e.button, e.time) :: s.lastAccepted, score := s.score + 1 }
  else s

/-- Process a stream of press events from the initial adapter state. -/
def runPresses (events : List PressEvent) : DebounceState :=
  events.foldl debounceStep ⟨[], 0⟩

/-- **C6.** Presses for the same button are debounced with the 80 ms
refractory window and each accepted press increments the score: two presses
of button 0 sent 30 ms apart yield exactly one score increment, sent 100 ms
apart they yield two; and in general the score is a monotonically
non-decreasing counter mutated only by accepted press events (+1 exactly
when the press is accepted). -/
theorem C6_debounce_score :
    (runPresses [⟨0, 0⟩, ⟨30, 0⟩]).score = 1 ∧
    (runPresses [⟨0, 0⟩, ⟨100, 0⟩]).score = 2 ∧
    (∀ (s : DebounceState) (e : PressEvent),
      (debounceStep s e).score = s.score + (if acceptPress s e then 1 else 0)) ∧
    (∀ (s : DebounceState) (e : PressEvent), s.score ≤ (debounceStep s e).score) := by
  refine ⟨by norm_num [runPresses, debounceStep, acceptPress, List.lookup,
      DEBOUNCE_WINDOW_MS],
    by norm_num [runPresses, debounceStep, acceptPress, List.lookup,
      DEBOUNCE_WINDOW_MS], ?_, ?_⟩
  · intro s e
    unfold debounceStep
    split_ifs with h <;> simp [h]
  · intro s e
    unfold debounceStep
    split_ifs with h
    · exact Nat.le_succ _
    · exact le_refl _

end BeatShooter
